import Mathlib

/-
A shallow embedding of the O-script interpreter (src/oscript.py).

Covered here, translated from the source:
  * the runtime value space (tagged variants, §"Runtime" of the source),
  * the per-instance time-travel history engine: `OInstance.set`, `_undo`,
    `_redo`, `_checkpoint`, `_rollback` together with the global step counter
    and the trace emitter of `Interpreter`,
  * property resolution `OInstance.get`,
  * class construction (`OClass.call`, `Interpreter.make_instance`, and the
    `Call` / `NewExpr` branches of `Interpreter.evaluate`),
  * the `Binary` branch of `Interpreter.evaluate` with
    `check_number_operands`,
  * the recursive-descent parser (`Parser`), given fuel for the Python
    call-stack recursion.

Modelling conventions, stated once here:
  * Python floats are modelled as rationals; the decimal rendering of a
    non-integral number is abstracted (no claim depends on it).
  * Python dicts are association lists; assignment to an existing key updates
    the entry in place, a new key is appended (Python ≥3.7 insertion order).
  * Python list stacks (`past`, `future`) push and pop at the list's end; we
    keep the top of the stack at the HEAD of the Lean list.
  * Python exceptions inside a mutating method leave the mutations performed
    before the raise in place, so every fallible operation returns the state
    it reached alongside the error.
  * `json.dumps` raises `TypeError` on values that are not JSON serializable
    (instances, classes, functions); `dict(x)` raises on a non-dict `x`.
    Both are modelled explicitly since undo/redo of snapshot patches hit them.
-/

namespace OScript

/-- Runtime values of the interpreter: nil, booleans, numbers (Python floats,
modelled as rationals), strings, and the reference-like values (instances,
classes, functions, native functions), identified by the data that the source
prints and compares them by. The list/dict values produced only by native
returns are not modelled; no claim depends on them. -/
inductive OValue where
  | nil
  | bool (b : Bool)
  | num (q : ℚ)
  | str (s : String)
  | instRef (cls : String) (id : Nat)
  | classRef (name : String)
  | fnRef (name : String)
  | nativeRef (name : String)
deriving DecidableEq

/-- The live field map of an instance: a Python dict from field name to value. -/
abbrev FieldMap := List (String × OValue)

/-- Python `d[k]` / `d.get(k)`: value of the first (unique) entry with key `k`. -/
def alLookup {α : Type} (m : List (String × α)) (k : String) : Option α :=
  match m with
  | [] => none
  | (k', v) :: rest => if k' = k then some v else alLookup rest k

/-- Python `d[k] = v`: update the entry in place if the key is present,
append a new entry otherwise. -/
def alInsert {α : Type} (m : List (String × α)) (k : String) (v : α) :
    List (String × α) :=
  match m with
  | [] => [(k, v)]
  | (k', v') :: rest => if k' = k then (k, v) :: rest else (k', v') :: alInsert rest k v

/-- Python `del d[k]`: remove the entry with key `k` (no-op when absent,
matching the guarded `if field in self.fields: del self.fields[field]`). -/
def alDelete {α : Type} (m : List (String × α)) (k : String) : List (String × α) :=
  m.filter (fun kv => kv.1 ≠ k)

/-- Payload slots of a patch tuple `(field, old, new, step, line)`: either the
`_UNDEFINED` sentinel, an ordinary value, or a whole-map snapshot (the dicts a
rollback stores in its atomic snapshot patch). -/
inductive PatchVal where
  | undef
  | val (v : OValue)
  | snap (m : FieldMap)
deriving DecidableEq

/-- A history patch, the tuple `(field, old, new, step, line)` of the source. -/
structure Patch where
  field : String
  old : PatchVal
  new : PatchVal
  step : Nat
  line : Nat
deriving DecidableEq

/-- One record of the process-global trace.  The source builds dicts with a
`type` key and per-type extra keys; each dict shape is one constructor.  The
`new` event carries `line: None` and an empty `fields_after`, so only its step
and object label are data. -/
inductive Event where
  | newE (step : Nat) (object : String)
  | setE (step line : Nat) (object field old new : String)
      (fieldsAfter : List (String × String))
  | undoE (step line : Nat) (object field old new : String)
      (fieldsAfter : List (String × String)) (rewindsStep : Nat)
  | redoE (step line : Nat) (object field old new : String)
      (fieldsAfter : List (String × String)) (reappliesStep : Nat)
  | checkpointE (step line : Nat) (object name : String)
      (fieldsAfter : List (String × String))
  | rollbackE (step line : Nat) (object name : String)
      (fieldsAfter : List (String × String))
deriving DecidableEq

/-- The parts of `Interpreter` state that the history engine and construction
touch: the global step counter `_step`, the trace, and `_next_obj_id`. -/
structure Interp where
  step : Nat
  trace : List Event
  nextObjId : Nat
deriving DecidableEq

/-- The per-instance state of `OInstance`: owning class name, identity, live
field map, past and future patch stacks (top at the head), and the checkpoint
table. -/
structure InstState where
  className : String
  id : Nat
  fields : FieldMap
  past : List Patch
  future : List Patch
  checkpoints : List (String × FieldMap)
deriving DecidableEq

/-- Errors: `RuntimeError_` of the source (carrying the token line and the
message), and a Python-level `TypeError` as raised by `dict(x)` on a non-dict
or `json.dumps` on a non-JSON-serializable value. -/
inductive Err where
  | runtimeError (line : Nat) (msg : String)
  | typeError
deriving DecidableEq

/-- Decidable equality of `Except` results, used to evaluate the model on
concrete inputs. -/
instance {ε α : Type} [DecidableEq ε] [DecidableEq α] : DecidableEq (Except ε α) :=
  fun a b =>
    match a, b with
    | .ok x, .ok y =>
      if h : x = y then .isTrue (by subst h; rfl)
      else .isFalse (fun hh => h (by cases hh; rfl))
    | .error e, .error f =>
      if h : e = f then .isTrue (by subst h; rfl)
      else .isFalse (fun hh => h (by cases hh; rfl))
    | .ok _, .error _ => .isFalse (fun hh => Except.noConfusion hh)
    | .error _, .ok _ => .isFalse (fun hh => Except.noConfusion hh)

/-- Rendering of an integral-or-not number by `Interpreter.serialize_value`:
`str(int(v))` when `v.is_integer()`, else `str(v)` (decimal rendering of a
non-integral float is abstracted by the rational rendering). -/
def numToStr (q : ℚ) : String :=
  if q.den = 1 then toString q.num else toString q

/-- `Interpreter.serialize_value` on the modelled value space (source lines
962-977; the `_UNDEFINED` case lives on `PatchVal`, the list/dict case in
`jsonDumpsFields`). -/
def serializeValue : OValue → String
  | .nil => "nil"
  | .bool b => if b then "true" else "false"
  | .num q => numToStr q
  | .str s => s
  | .instRef cls id => "<" ++ cls ++ "#" ++ toString id ++ ">"
  | .classRef n => "<class " ++ n ++ ">"
  | .fnRef n => "<fn " ++ n ++ ">"
  | .nativeRef n => "<native fn " ++ n ++ ">"

/-- Values `json.dumps` accepts: nil, booleans, numbers and strings.  The
reference-like values make `json.dumps` raise `TypeError`. -/
def jsonSafe : OValue → Bool
  | .nil => true
  | .bool _ => true
  | .num _ => true
  | .str _ => true
  | _ => false

/-- Minimal JSON string escaping (backslash and quote); the exact escape set
of Python's `json` does not matter to any claim. -/
def jsonEscape (s : String) : String :=
  String.join (s.data.map fun c =>
    if c = '\\' then "\\\\" else if c = '"' then "\\\"" else String.singleton c)

/-- JSON scalar rendering used by `json.dumps` for the safe values. -/
def jsonScalar : OValue → String
  | .nil => "null"
  | .bool b => if b then "true" else "false"
  | .num q => numToStr q
  | .str s => "\"" ++ jsonEscape s ++ "\""
  | _ => ""

/-- `json.dumps(d, separators=(",", ":"))` on a raw field dict.  Raises
`TypeError` when some value is not JSON serializable — which is exactly what
happens when undo/redo serialize a snapshot patch whose map holds an instance,
class or function value. -/
def jsonDumpsFields (m : FieldMap) : Except Err String :=
  if m.all (fun kv => jsonSafe kv.2) then
    .ok ("\x7b" ++ String.intercalate ","
      (m.map (fun kv => "\"" ++ jsonEscape kv.1 ++ "\":" ++ jsonScalar kv.2)) ++ "\x7d")
  else .error .typeError

/-- `serialize_value` applied to a patch payload slot: the `_UNDEFINED`
sentinel renders as `"<undefined>"`, a value by `serializeValue`, and a
snapshot dict goes through `json.dumps` (which can raise). -/
def serializePV : PatchVal → Except Err String
  | .undef => .ok "<undefined>"
  | .val v => .ok (serializeValue v)
  | .snap m => jsonDumpsFields m

/-- `OInstance._serialize_fields`: per-value serialization of the live map. -/
def serializeFields (m : FieldMap) : List (String × String) :=
  m.map (fun kv => (kv.1, serializeValue kv.2))

/-- `OInstance._obj_label`. -/
def objLabel (st : InstState) : String :=
  st.className ++ "#" ++ toString st.id

/-- Label coercion shared (textually duplicated) by `_checkpoint` and
`_rollback`: `label if isinstance(label, str) else serialize_value(label)`. -/
def coerceLabel (label : OValue) : String :=
  match label with
  | .str s => s
  | v => serializeValue v

/-- `dict(x)` applied to a patch payload, as done by `_undo`/`_redo` on a
snapshot patch: copies the dict, raises `TypeError` when the payload is not a
dict (e.g. the `_UNDEFINED` sentinel or an ordinary value, which happens when
a user writes to a field literally named `__snapshot__` and then undoes). -/
def dictOfPy : PatchVal → Except Err FieldMap
  | .snap m => .ok m
  | _ => .error .typeError

/-- `OInstance.set` (source lines 752-768): record the old value (or the
`_UNDEFINED` sentinel), take the next step, push a field patch, clear the
future stack, install the value, emit a `set` event.  Never raises. -/
def setOp (st : InstState) (it : Interp) (field : String) (value : OValue)
    (line : Nat) : InstState × Interp :=
  let oldPV : PatchVal :=
    match alLookup st.fields field with
    | some v => .val v
    | none => .undef
  let oldStr : String :=
    match alLookup st.fields field with
    | some v => serializeValue v
    | none => "<undefined>"
  let step := it.step + 1
  let p : Patch := ⟨field, oldPV, .val value, step, line⟩
  let fields' := alInsert st.fields field value
  let st' : InstState :=
    ⟨st.className, st.id, fields', p :: st.past, [], st.checkpoints⟩
  let ev : Event := .setE step line (objLabel st) field oldStr
    (serializeValue value) (serializeFields fields')
  (st', ⟨step, it.trace ++ [ev], it.nextObjId⟩)

/-- `OInstance._undo` (source lines 770-799).  Pops the top past patch; a
snapshot patch replaces the whole live map with `dict(old)`, a field patch
restores or deletes the field; the patch is pushed onto the future and an
`undo` event with swapped old/new is emitted.  The `dict(...)` call and the
event serialization can raise `TypeError`; mutations performed before the
raise stay (the patch is already popped, and in the event case the map and
future are already updated). -/
def undoOp (st : InstState) (it : Interp) (line : Nat) :
    Except Err Unit × InstState × Interp :=
  match st.past with
  | [] => (.ok (), st, it)
  | p :: rest =>
    let step := it.step + 1
    let it1 : Interp := ⟨step, it.trace, it.nextObjId⟩
    if p.field = "__snapshot__" then
      match dictOfPy p.old with
      | .error e =>
        (.error e, ⟨st.className, st.id, st.fields, rest, st.future, st.checkpoints⟩, it1)
      | .ok m =>
        let st' : InstState :=
          ⟨st.className, st.id, m, rest, p :: st.future, st.checkpoints⟩
        match serializePV p.new, serializePV p.old with
        | .ok sNew, .ok sOld =>
          let ev : Event := .undoE step line (objLabel st) p.field sNew sOld
            (serializeFields st'.fields) p.step
          (.ok (), st', ⟨step, it1.trace ++ [ev], it1.nextObjId⟩)
        | .error e, _ => (.error e, st', it1)
        | _, .error e => (.error e, st', it1)
    else
      let fields' :=
        match p.old with
        | .undef => alDelete st.fields p.field
        | .val v => alInsert st.fields p.field v
        | .snap _ => st.fields
          -- unreachable: snapshot payloads only occur under the
          -- `__snapshot__` marker (Python would store the raw dict here)
      let st' : InstState :=
        ⟨st.className, st.id, fields', rest, p :: st.future, st.checkpoints⟩
      match serializePV p.new, serializePV p.old with
      | .ok sNew, .ok sOld =>
        let ev : Event := .undoE step line (objLabel st) p.field sNew sOld
          (serializeFields st'.fields) p.step
        (.ok (), st', ⟨step, it1.trace ++ [ev], it1.nextObjId⟩)
      | .error e, _ => (.error e, st', it1)
      | _, .error e => (.error e, st', it1)

/-- `OInstance._redo` (source lines 801-824), the mirror of `_undo`: pops the
top future patch, reapplies its new side, pushes it back onto the past, emits
a `redo` event.  It does NOT clear the future. -/
def redoOp (st : InstState) (it : Interp) (line : Nat) :
    Except Err Unit × InstState × Interp :=
  match st.future with
  | [] => (.ok (), st, it)
  | p :: rest =>
    let step := it.step + 1
    let it1 : Interp := ⟨step, it.trace, it.nextObjId⟩
    if p.field = "__snapshot__" then
      match dictOfPy p.new with
      | .error e =>
        (.error e, ⟨st.className, st.id, st.fields, st.past, rest, st.checkpoints⟩, it1)
      | .ok m =>
        let st' : InstState :=
          ⟨st.className, st.id, m, p :: st.past, rest, st.checkpoints⟩
        match serializePV p.old, serializePV p.new with
        | .ok sOld, .ok sNew =>
          let ev : Event := .redoE step line (objLabel st) p.field sOld sNew
            (serializeFields st'.fields) p.step
          (.ok (), st', ⟨step, it1.trace ++ [ev], it1.nextObjId⟩)
        | .error e, _ => (.error e, st', it1)
        | _, .error e => (.error e, st', it1)
    else
      let fields' :=
        match p.new with
        | .val v => alInsert st.fields p.field v
        | _ => st.fields
          -- unreachable: a field patch created by `set` always has a value
          -- in its new slot
      let st' : InstState :=
        ⟨st.className, st.id, fields', p :: st.past, rest, st.checkpoints⟩
      match serializePV p.old, serializePV p.new with
      | .ok sOld, .ok sNew =>
        let ev : Event := .redoE step line (objLabel st) p.field sOld sNew
          (serializeFields st'.fields) p.step
        (.ok (), st', ⟨step, it1.trace ++ [ev], it1.nextObjId⟩)
      | .error e, _ => (.error e, st', it1)
      | _, .error e => (.error e, st', it1)

/-- `OInstance._checkpoint` (source lines 838-851): coerce the label, store a
copy of the live map in the checkpoint table, take a step, emit a
`checkpoint` event.  Past and future stacks are untouched.  Never raises. -/
def checkpointOp (st : InstState) (it : Interp) (label : OValue) (line : Nat) :
    InstState × Interp :=
  let name := coerceLabel label
  let st' : InstState :=
    ⟨st.className, st.id, st.fields, st.past, st.future,
      alInsert st.checkpoints name st.fields⟩
  let step := it.step + 1
  let ev : Event := .checkpointE step line (objLabel st) name
    (serializeFields st.fields)
  (st', ⟨step, it.trace ++ [ev], it.nextObjId⟩)

/-- `OInstance._rollback` (source lines 853-875): coerce the label; raise (and
mutate nothing, since the raise precedes every mutation) when no checkpoint of
that name exists; otherwise push one atomic snapshot patch, clear the future,
replace the live map with a copy of the stored snapshot, emit a `rollback`
event. -/
def rollbackOp (st : InstState) (it : Interp) (label : OValue) (line : Nat) :
    Except Err Unit × InstState × Interp :=
  let name := coerceLabel label
  match alLookup st.checkpoints name with
  | none =>
    (.error (.runtimeError line ("No checkpoint named '" ++ name ++ "'.")), st, it)
  | some snapMap =>
    let oldSnapshot := st.fields
    let newSnapshot := snapMap
    let step := it.step + 1
    let p : Patch := ⟨"__snapshot__", .snap oldSnapshot, .snap newSnapshot, step, line⟩
    let st' : InstState :=
      ⟨st.className, st.id, newSnapshot, p :: st.past, [], st.checkpoints⟩
    let ev : Event := .rollbackE step line (objLabel st) name
      (serializeFields newSnapshot)
    (.ok (), st', ⟨step, it.trace ++ [ev], it.nextObjId⟩)

/-- What `OInstance.get` can produce: a field value, a declared method bound
to the instance, or one of the synthesized built-in native functions (with its
native name and arity, as `NativeFunction(name, arity, ...)` is built). -/
inductive GetResult where
  | fieldVal (v : OValue)
  | boundMethod (methodName : String)
  | builtin (nativeName : String) (arity : Nat)
deriving DecidableEq

/-- The class data `OInstance.get` consults: the class name and the domain of
its method table (method bodies are irrelevant to property resolution). -/
structure ClassInfo where
  name : String
  methods : List String
deriving DecidableEq

/-- `OInstance.get` (source lines 721-750): the live field map first, then the
class's declared methods, then the built-in time-travel methods
`undo`/`redo`/`history`/`id`/`checkpoint`/`rollback`/`checkpoints`, and
otherwise a runtime error. -/
def instGet (cls : ClassInfo) (fields : FieldMap) (name : String) (line : Nat) :
    Except Err GetResult :=
  match alLookup fields name with
  | some v => .ok (.fieldVal v)
  | none =>
    if cls.methods.contains name then .ok (.boundMethod name)
    else if name = "undo" then .ok (.builtin (cls.name ++ ".undo") 0)
    else if name = "redo" then .ok (.builtin (cls.name ++ ".redo") 0)
    else if name = "history" then .ok (.builtin (cls.name ++ ".history") 0)
    else if name = "id" then .ok (.builtin (cls.name ++ ".id") 0)
    else if name = "checkpoint" then .ok (.builtin (cls.name ++ ".checkpoint") 1)
    else if name = "rollback" then .ok (.builtin (cls.name ++ ".rollback") 1)
    else if name = "checkpoints" then .ok (.builtin (cls.name ++ ".checkpoints") 0)
    else .error (.runtimeError line ("Undefined property '" ++ name ++ "'."))

/-- The class data class construction uses: the name and, when an `init`
method is declared, its arity (`OClass.find_method("init")`). -/
structure OClassH where
  name : String
  initArity : Option Nat
deriving DecidableEq

/-- `OClass.arity` (source lines 694-698): the initializer's arity when
present, else 0. -/
def OClassH.arity (c : OClassH) : Nat :=
  match c.initArity with
  | some a => a
  | none => 0

/-- `Interpreter.make_instance` (source lines 909-920): allocate the next
object id, take a step, emit a `new` event, return the fresh instance. -/
def makeInstance (it : Interp) (c : OClassH) : InstState × Interp :=
  let obj : InstState := ⟨c.name, it.nextObjId, [], [], [], []⟩
  let step := it.step + 1
  let ev : Event := .newE step (c.name ++ "#" ++ toString it.nextObjId)
  (obj, ⟨step, it.trace ++ [ev], it.nextObjId + 1⟩)

/-- `OClass.call` (source lines 699-704): make the instance, then run the
bound `init` when one is declared.  The execution of the initializer body is
arbitrary user code; it is abstracted as the parameter `runInit` (the result
of the bound call is discarded by the source, which returns the instance). -/
def oclassCall (runInit : InstState → Interp → List OValue → InstState × Interp)
    (c : OClassH) (it : Interp) (args : List OValue) : InstState × Interp :=
  let (inst, it1) := makeInstance it c
  match c.initArity with
  | some _ => runInit inst it1 args
  | none => (inst, it1)

/-- The `Call` branch of `Interpreter.evaluate` (source lines 1096-1104),
specialized to a callee that evaluated to a class, with the arguments already
evaluated: `hasattr(callee, "call")` holds for a class, `getattr(callee,
"arity", lambda: -1)()` is `OClass.arity` (a nonnegative Python int, hence
modelled as `Nat`), and the call proceeds when the `-1`-or-exact-arity check
passes. -/
def evalCallOnClass (runInit : InstState → Interp → List OValue → InstState × Interp)
    (c : OClassH) (it : Interp) (args : List OValue) (line : Nat) :
    Except Err (InstState × Interp) :=
  let ar := c.arity
  if (ar : Int) ≠ -1 ∧ args.length ≠ ar then
    .error (.runtimeError line ("Expected " ++ toString ar ++
      " arguments but got " ++ toString args.length ++ "."))
  else .ok (oclassCall runInit c it args)

/-- The `NewExpr` branch of `Interpreter.evaluate` (source lines 1119-1127),
after the name resolved to a class, with the arguments already evaluated:
exact-arity check against `OClass.arity`, then `klass.call`. -/
def evalNewOnClass (runInit : InstState → Interp → List OValue → InstState × Interp)
    (c : OClassH) (it : Interp) (args : List OValue) (line : Nat) :
    Except Err (InstState × Interp) :=
  let ar := c.arity
  if args.length ≠ ar then
    .error (.runtimeError line ("Expected " ++ toString ar ++
      " arguments but got " ++ toString args.length ++ "."))
  else .ok (oclassCall runInit c it args)

/-- Python's `isinstance(v, (int, float))` used by `check_number_operands` and
the `PLUS` branch: true for numbers AND for booleans, because `bool` is a
subclass of `int` in Python. -/
def isNumberPy : OValue → Bool
  | .num _ => true
  | .bool _ => true
  | _ => false

/-- Numeric reading of a Python `(int, float)` operand (`True` is 1, `False`
is 0); only applied under `isNumberPy`. -/
def toNumPy : OValue → ℚ
  | .num q => q
  | .bool b => if b then 1 else 0
  | _ => 0

/-- `Interpreter.check_number_operands` (source lines 1142-1144). -/
def checkNumberOperands (line : Nat) (l r : OValue) : Except Err Unit :=
  if isNumberPy l && isNumberPy r then .ok ()
  else .error (.runtimeError line "Operands must be numbers.")

/-- Python `v == 0` as tested by the division branch: numeric comparison for
`(int, float)` values (so `False == 0` is true), false otherwise. -/
def pyEqZero : OValue → Bool
  | .num q => q == 0
  | .bool b => !b
  | _ => false

/-- Python `a == b` of `Interpreter.is_equal`: numeric cross-type equality
for `(int, float)` values (so `true == 1`), structural for nil and strings,
identity for instances (their ids are unique), name-identity for
classes/functions (an abstraction of object identity; no claim depends on
it). -/
def pyIsEqual (a b : OValue) : Bool :=
  if isNumberPy a && isNumberPy b then toNumPy a == toNumPy b
  else a == b

/-- Token kinds of the scanner (`TokenType`). -/
inductive TType where
  | lparen | rparen | lbrace | rbrace | comma | dot | minus | plus
  | semicolon | slash | star
  | bang | bangEq | equal | equalEqual | greater | greaterEq | less | lessEq
  | ident | string | number
  | kand | kclass | kelse | kfalse | kfun | kif | knil | kor | kprint
  | kreturn | kthis | ktrue | kvar | kwhile | knew
  | eof
deriving DecidableEq

/-- The `Binary` branch of `Interpreter.evaluate` (source lines 1044-1080),
with both operands already evaluated.  An operator kind the branch does not
handle would fall through to the final `raise Exception` of `evaluate`,
modelled as a `TypeError`-style internal error (unreachable from the
parser). -/
def evalBinary (op : TType) (line : Nat) (l r : OValue) : Except Err OValue :=
  match op with
  | .plus =>
    if isNumberPy l && isNumberPy r then .ok (.num (toNumPy l + toNumPy r))
    else
      match l, r with
      | .str a, .str b => .ok (.str (a ++ b))
      | _, _ => .error (.runtimeError line "Operands must be two numbers or two strings.")
  | .minus => do
    let _ ← checkNumberOperands line l r
    .ok (.num (toNumPy l - toNumPy r))
  | .star => do
    let _ ← checkNumberOperands line l r
    .ok (.num (toNumPy l * toNumPy r))
  | .slash => do
    let _ ← checkNumberOperands line l r
    if pyEqZero r then .error (.runtimeError line "Division by zero.")
    else .ok (.num (toNumPy l / toNumPy r))
  | .greater => do
    let _ ← checkNumberOperands line l r
    .ok (.bool (toNumPy r < toNumPy l))
  | .greaterEq => do
    let _ ← checkNumberOperands line l r
    .ok (.bool (toNumPy r ≤ toNumPy l))
  | .less => do
    let _ ← checkNumberOperands line l r
    .ok (.bool (toNumPy l < toNumPy r))
  | .lessEq => do
    let _ ← checkNumberOperands line l r
    .ok (.bool (toNumPy l ≤ toNumPy r))
  | .equalEqual => .ok (.bool (pyIsEqual l r))
  | .bangEq => .ok (.bool (!pyIsEqual l r))
  | _ => .error .typeError

/-- A field write `(field, value, line)` as performed by the `SetExpr` branch
of the evaluator through `OInstance.set`. -/
abbrev Write := String × OValue × Nat

/-- A sequence of field writes applied through `OInstance.set`. -/
def applyWrites (st : InstState) (it : Interp) : List Write → InstState × Interp
  | [] => (st, it)
  | w :: ws =>
    applyWrites (setOp st it w.1 w.2.1 w.2.2).1 (setOp st it w.1 w.2.1 w.2.2).2 ws

/-- `n` successive calls of `obj.undo()`; a Python exception aborts the
remaining calls (the program unwinds). -/
def undoN : Nat → InstState → Interp → Except Err Unit × InstState × Interp
  | 0, st, it => (.ok (), st, it)
  | n + 1, st, it =>
    match undoOp st it 0 with
    | (.ok _, st', it') => undoN n st' it'
    | (.error e, st', it') => (.error e, st', it')

/-- `n` successive calls of `obj.redo()`. -/
def redoN : Nat → InstState → Interp → Except Err Unit × InstState × Interp
  | 0, st, it => (.ok (), st, it)
  | n + 1, st, it =>
    match redoOp st it 0 with
    | (.ok _, st', it') => redoN n st' it'
    | (.error e, st', it') => (.error e, st', it')

/-- One interleaved history operation on an instance: a field write, an undo,
or a redo. -/
inductive HOp where
  | setH (field : String) (v : OValue) (line : Nat)
  | undoH (line : Nat)
  | redoH (line : Nat)
deriving DecidableEq

/-- A sequence of interleaved writes/undos/redos; a Python exception aborts
the remaining operations. -/
def applyOps : List HOp → InstState → Interp → Except Err Unit × InstState × Interp
  | [], st, it => (.ok (), st, it)
  | .setH f v l :: ops, st, it =>
    let (st', it') := setOp st it f v l
    applyOps ops st' it'
  | .undoH l :: ops, st, it =>
    match undoOp st it l with
    | (.ok _, st', it') => applyOps ops st' it'
    | (.error e, st', it') => (.error e, st', it')
  | .redoH l :: ops, st, it =>
    match redoOp st it l with
    | (.ok _, st', it') => applyOps ops st' it'
    | (.error e, st', it') => (.error e, st', it')

/-- A token literal: the number or string payload attached by the scanner. -/
inductive Lit where
  | numL (q : ℚ)
  | strL (s : String)
deriving DecidableEq

/-- A scanner token: kind, lexeme, optional literal, source line. -/
structure Token where
  ttype : TType
  lexeme : String
  literal : Option Lit
  line : Nat
deriving DecidableEq

/-- A parse error, carrying the offending token's line and lexeme and the
message (the source formats them as `[line L] Error at 'lexeme': msg`). -/
structure PErr where
  line : Nat
  lexeme : String
  msg : String
deriving DecidableEq

/-- Expression nodes of the AST (the `Expr` dataclasses of the source). -/
inductive PExpr where
  | lit (v : OValue)
  | grouping (e : PExpr)
  | unary (op : Token) (right : PExpr)
  | binary (left : PExpr) (op : Token) (right : PExpr)
  | variable (name : Token)
  | assign (name : Token) (value : PExpr)
  | logical (left : PExpr) (op : Token) (right : PExpr)
  | call (callee : PExpr) (paren : Token) (args : List PExpr)
  | get (obj : PExpr) (name : Token)
  | setE (obj : PExpr) (name : Token) (value : PExpr)
  | thisE (keyword : Token)
  | newE (className : Token) (args : List PExpr)

/-- Statement nodes of the AST (the `Stmt` dataclasses; `classDecl` methods
are always `funDecl`s, mirroring `List[FunctionStmt]`). -/
inductive PStmt where
  | exprStmt (e : PExpr)
  | printStmt (e : PExpr)
  | varStmt (name : Token) (init : Option PExpr)
  | block (stmts : List PStmt)
  | ifS (cond : PExpr) (thenB : PStmt) (elseB : Option PStmt)
  | whileS (cond : PExpr) (body : PStmt)
  | funDecl (name : Token) (params : List Token) (body : List PStmt)
  | returnS (keyword : Token) (value : Option PExpr)
  | classDecl (name : Token) (methods : List PStmt)

/-- Parser state.  The Python parser keeps an index into the token array; we
keep the remaining suffix together with the previously consumed token, which
gives the same `peek`/`advance`/`previous` access pattern. -/
structure PSt where
  rest : List Token
  prev : Token
deriving DecidableEq

/-- Fallback token for an empty remainder; scanner output always ends with an
EOF token, so this is unreachable on scanned streams. -/
def eofTokenD : Token := ⟨TType.eof, "", none, 0⟩

/-- `Parser.peek`. -/
def peekT (st : PSt) : Token := st.rest.headD eofTokenD

/-- `Parser.previous`. -/
def prevT (st : PSt) : Token := st.prev

/-- `Parser.is_at_end`. -/
def isAtEndT (st : PSt) : Bool := (peekT st).ttype == TType.eof

/-- `Parser.advance`: move one token forward unless at end. -/
def advT (st : PSt) : PSt :=
  if isAtEndT st then st
  else
    match st.rest with
    | [] => st
    | t :: ts => ⟨ts, t⟩

/-- `Parser.check`. -/
def checkT (st : PSt) (t : TType) : Bool :=
  if isAtEndT st then false else (peekT st).ttype == t

/-- `Parser.match` on a single kind: consume on match. -/
def matchT1 (st : PSt) (t : TType) : Bool × PSt :=
  if checkT st t then (true, advT st) else (false, st)

/-- `Parser.match` on several kinds. -/
def matchL (st : PSt) (ts : List TType) : Bool × PSt :=
  if ts.any (fun t => checkT st t) then (true, advT st) else (false, st)

/-- `Parser.error`: a parse error at a token. -/
def errAt (tok : Token) (msg : String) : PErr := ⟨tok.line, tok.lexeme, msg⟩

/-- `Parser.consume`: on the expected kind return the consumed token,
otherwise a parse error at the lookahead. -/
def consumeT (st : PSt) (t : TType) (msg : String) : Except PErr (Token × PSt) :=
  if checkT st t then .ok (peekT st, advT st) else .error (errAt (peekT st) msg)

/-- Error standing for exhausted fuel.  The Python parser recurses on the call
stack without bound; the fuel parameter makes that recursion structural, and
every lemma quantifies over the fuel. -/
def fuelErr : PErr := ⟨0, "", "Parser recursion limit exceeded."⟩

/-- Value of a `Literal` node built from `previous().literal` (NUMBER/STRING
tokens always carry a literal, so the `none` case is unreachable on scanned
streams). -/
def litOfToken (tok : Token) : OValue :=
  match tok.literal with
  | some (Lit.numL q) => OValue.num q
  | some (Lit.strL s) => OValue.str s
  | none => OValue.nil

mutual

/-- `Parser.expression`. -/
def pExpression : Nat → PSt → Except PErr (PExpr × PSt)
  | 0, _ => .error fuelErr
  | fuel + 1, st => pAssignment fuel st

/-- `Parser.assignment`. -/
def pAssignment : Nat → PSt → Except PErr (PExpr × PSt)
  | 0, _ => .error fuelErr
  | fuel + 1, st => do
    let (e, st1) ← pOr fuel st
    let (m, st2) := matchT1 st1 TType.equal
    if m then do
      let equals := prevT st2
      let (v, st3) ← pAssignment fuel st2
      match e with
      | PExpr.variable n => .ok (PExpr.assign n v, st3)
      | PExpr.get o n => .ok (PExpr.setE o n v, st3)
      | _ => .error (errAt equals "Invalid assignment target.")
    else .ok (e, st1)

/-- `Parser.or_`. -/
def pOr : Nat → PSt → Except PErr (PExpr × PSt)
  | 0, _ => .error fuelErr
  | fuel + 1, st => do
    let (e, st1) ← pAnd fuel st
    pOrLoop fuel e st1

/-- The `while self.match(OR)` loop of `Parser.or_`. -/
def pOrLoop : Nat → PExpr → PSt → Except PErr (PExpr × PSt)
  | 0, _, _ => .error fuelErr
  | fuel + 1, e, st =>
    let (m, st1) := matchT1 st TType.kor
    if m then do
      let op := prevT st1
      let (r, st2) ← pAnd fuel st1
      pOrLoop fuel (PExpr.logical e op r) st2
    else .ok (e, st)

/-- `Parser.and_`. -/
def pAnd : Nat → PSt → Except PErr (PExpr × PSt)
  | 0, _ => .error fuelErr
  | fuel + 1, st => do
    let (e, st1) ← pEquality fuel st
    pAndLoop fuel e st1

/-- The `while self.match(AND)` loop of `Parser.and_`. -/
def pAndLoop : Nat → PExpr → PSt → Except PErr (PExpr × PSt)
  | 0, _, _ => .error fuelErr
  | fuel + 1, e, st =>
    let (m, st1) := matchT1 st TType.kand
    if m then do
      let op := prevT st1
      let (r, st2) ← pEquality fuel st1
      pAndLoop fuel (PExpr.logical e op r) st2
    else .ok (e, st)

/-- `Parser.equality`. -/
def pEquality : Nat → PSt → Except PErr (PExpr × PSt)
  | 0, _ => .error fuelErr
  | fuel + 1, st => do
    let (e, st1) ← pComparison fuel st
    pEqualityLoop fuel e st1

/-- The operator loop of `Parser.equality`. -/
def pEqualityLoop : Nat → PExpr → PSt → Except PErr (PExpr × PSt)
  | 0, _, _ => .error fuelErr
  | fuel + 1, e, st =>
    let (m, st1) := matchL st [TType.bangEq, TType.equalEqual]
    if m then do
      let op := prevT st1
      let (r, st2) ← pComparison fuel st1
      pEqualityLoop fuel (PExpr.binary e op r) st2
    else .ok (e, st)

/-- `Parser.comparison`. -/
def pComparison : Nat → PSt → Except PErr (PExpr × PSt)
  | 0, _ => .error fuelErr
  | fuel + 1, st => do
    let (e, st1) ← pTerm fuel st
    pComparisonLoop fuel e st1

/-- The operator loop of `Parser.comparison`. -/
def pComparisonLoop : Nat → PExpr → PSt → Except PErr (PExpr × PSt)
  | 0, _, _ => .error fuelErr
  | fuel + 1, e, st =>
    let (m, st1) := matchL st [TType.greater, TType.greaterEq, TType.less, TType.lessEq]
    if m then do
      let op := prevT st1
      let (r, st2) ← pTerm fuel st1
      pComparisonLoop fuel (PExpr.binary e op r) st2
    else .ok (e, st)

/-- `Parser.term`. -/
def pTerm : Nat → PSt → Except PErr (PExpr × PSt)
  | 0, _ => .error fuelErr
  | fuel + 1, st => do
    let (e, st1) ← pFactor fuel st
    pTermLoop fuel e st1

/-- The operator loop of `Parser.term`. -/
def pTermLoop : Nat → PExpr → PSt → Except PErr (PExpr × PSt)
  | 0, _, _ => .error fuelErr
  | fuel + 1, e, st =>
    let (m, st1) := matchL st [TType.minus, TType.plus]
    if m then do
      let op := prevT st1
      let (r, st2) ← pFactor fuel st1
      pTermLoop fuel (PExpr.binary e op r) st2
    else .ok (e, st)

/-- `Parser.factor`. -/
def pFactor : Nat → PSt → Except PErr (PExpr × PSt)
  | 0, _ => .error fuelErr
  | fuel + 1, st => do
    let (e, st1) ← pUnary fuel st
    pFactorLoop fuel e st1

/-- The operator loop of `Parser.factor`. -/
def pFactorLoop : Nat → PExpr → PSt → Except PErr (PExpr × PSt)
  | 0, _, _ => .error fuelErr
  | fuel + 1, e, st =>
    let (m, st1) := matchL st [TType.slash, TType.star]
    if m then do
      let op := prevT st1
      let (r, st2) ← pUnary fuel st1
      pFactorLoop fuel (PExpr.binary e op r) st2
    else .ok (e, st)

/-- `Parser.unary`. -/
def pUnary : Nat → PSt → Except PErr (PExpr × PSt)
  | 0, _ => .error fuelErr
  | fuel + 1, st =>
    let (m, st1) := matchL st [TType.bang, TType.minus]
    if m then do
      let op := prevT st1
      let (r, st2) ← pUnary fuel st1
      .ok (PExpr.unary op r, st2)
    else pCall fuel st

/-- `Parser.call`. -/
def pCall : Nat → PSt → Except PErr (PExpr × PSt)
  | 0, _ => .error fuelErr
  | fuel + 1, st => do
    let (e, st1) ← pPrimary fuel st
    pCallLoop fuel e st1

/-- The `while True` postfix loop of `Parser.call`. -/
def pCallLoop : Nat → PExpr → PSt → Except PErr (PExpr × PSt)
  | 0, _, _ => .error fuelErr
  | fuel + 1, e, st =>
    let (m1, st1) := matchT1 st TType.lparen
    if m1 then do
      let (e2, st2) ← pFinishCall fuel e st1
      pCallLoop fuel e2 st2
    else
      let (m2, st2) := matchT1 st TType.dot
      if m2 then do
        let (nameTok, st3) ← consumeT st2 TType.ident "Expect property name after '.'."
        pCallLoop fuel (PExpr.get e nameTok) st3
      else .ok (e, st)

/-- `Parser.finish_call` (source lines 530-540): an empty argument list when
the next token closes the parens, otherwise the comma loop with the 255-entry
check; then the closing paren is consumed and recorded on the node. -/
def pFinishCall : Nat → PExpr → PSt → Except PErr (PExpr × PSt)
  | 0, _, _ => .error fuelErr
  | fuel + 1, callee, st =>
    if checkT st TType.rparen then do
      let (paren, st1) ← consumeT st TType.rparen "Expect ')' after arguments."
      .ok (PExpr.call callee paren [], st1)
    else do
      let (args, st1) ← pArgsLoop fuel st []
      let (paren, st2) ← consumeT st1 TType.rparen "Expect ')' after arguments."
      .ok (PExpr.call callee paren args, st2)

/-- The argument loop of `Parser.finish_call`: `len(args) >= 255` raises
`"Can't have more than 255 arguments."` before the next argument is parsed. -/
def pArgsLoop : Nat → PSt → List PExpr → Except PErr (List PExpr × PSt)
  | 0, _, _ => .error fuelErr
  | fuel + 1, st, args =>
    if args.length ≥ 255 then
      .error (errAt (peekT st) "Can't have more than 255 arguments.")
    else do
      let (e, st1) ← pExpression fuel st
      let args1 := args ++ [e]
      let (m, st2) := matchT1 st1 TType.comma
      if m then pArgsLoop fuel st2 args1 else .ok (args1, st2)

/-- `Parser.primary` (source lines 542-570), including the `new` branch. -/
def pPrimary : Nat → PSt → Except PErr (PExpr × PSt)
  | 0, _ => .error fuelErr
  | fuel + 1, st =>
    let (mF, s1) := matchT1 st TType.kfalse
    if mF then .ok (PExpr.lit (OValue.bool false), s1)
    else
      let (mT, s2) := matchT1 st TType.ktrue
      if mT then .ok (PExpr.lit (OValue.bool true), s2)
      else
        let (mN, s3) := matchT1 st TType.knil
        if mN then .ok (PExpr.lit OValue.nil, s3)
        else
          let (mL, s4) := matchL st [TType.number, TType.string]
          if mL then .ok (PExpr.lit (litOfToken (prevT s4)), s4)
          else
            let (mTh, s5) := matchT1 st TType.kthis
            if mTh then .ok (PExpr.thisE (prevT s5), s5)
            else
              let (mNew, s6) := matchT1 st TType.knew
              if mNew then do
                let (className, s7) ← consumeT s6 TType.ident "Expect class name after 'new'."
                let (_, s8) ← consumeT s7 TType.lparen "Expect '(' after class name."
                if checkT s8 TType.rparen then do
                  let (_, s9) ← consumeT s8 TType.rparen "Expect ')' after arguments."
                  .ok (PExpr.newE className [], s9)
                else do
                  let (args, s9) ← pNewArgsLoop fuel s8 []
                  let (_, s10) ← consumeT s9 TType.rparen "Expect ')' after arguments."
                  .ok (PExpr.newE className args, s10)
              else
                let (mId, s11) := matchT1 st TType.ident
                if mId then .ok (PExpr.variable (prevT s11), s11)
                else
                  let (mLp, s12) := matchT1 st TType.lparen
                  if mLp then do
                    let (e, s13) ← pExpression fuel s12
                    let (_, s14) ← consumeT s13 TType.rparen "Expect ')' after expression."
                    .ok (PExpr.grouping e, s14)
                  else .error (errAt (peekT st) "Expect expression.")

/-- The argument loop of the `new` branch of `Parser.primary`.  Unlike
`finish_call`'s loop there is NO 255-entry check in the source. -/
def pNewArgsLoop : Nat → PSt → List PExpr → Except PErr (List PExpr × PSt)
  | 0, _, _ => .error fuelErr
  | fuel + 1, st, args => do
    let (e, st1) ← pExpression fuel st
    let args1 := args ++ [e]
    let (m, st2) := matchT1 st1 TType.comma
    if m then pNewArgsLoop fuel st2 args1 else .ok (args1, st2)

/-- `Parser.declaration`. -/
def pDeclaration : Nat → PSt → Except PErr (PStmt × PSt)
  | 0, _ => .error fuelErr
  | fuel + 1, st =>
    let (mC, s1) := matchT1 st TType.kclass
    if mC then pClassDecl fuel s1
    else
      let (mFn, s2) := matchT1 st TType.kfun
      if mFn then pFunction fuel "function" s2
      else
        let (mV, s3) := matchT1 st TType.kvar
        if mV then pVarDecl fuel s3
        else pStatement fuel st

/-- `Parser.class_declaration`. -/
def pClassDecl : Nat → PSt → Except PErr (PStmt × PSt)
  | 0, _ => .error fuelErr
  | fuel + 1, st => do
    let (name, s1) ← consumeT st TType.ident "Expect class name."
    let (_, s2) ← consumeT s1 TType.lbrace "Expect '\x7b' before class body."
    let (methods, s3) ← pClassBodyLoop fuel s2 []
    let (_, s4) ← consumeT s3 TType.rbrace "Expect '\x7d' after class body."
    .ok (PStmt.classDecl name methods, s4)

/-- The method loop of `Parser.class_declaration`: every member must begin
with `fun`. -/
def pClassBodyLoop : Nat → PSt → List PStmt → Except PErr (List PStmt × PSt)
  | 0, _, _ => .error fuelErr
  | fuel + 1, st, methods =>
    if !(checkT st TType.rbrace) && !(isAtEndT st) then do
      let (_, s1) ← consumeT st TType.kfun "Expect 'fun' before method declaration."
      let (m, s2) ← pFunction fuel "method" s1
      pClassBodyLoop fuel s2 (methods ++ [m])
    else .ok (methods, st)

/-- `Parser.function` (source lines 369-383): name, parameter list with the
255-entry check, then the braced body. -/
def pFunction : Nat → String → PSt → Except PErr (PStmt × PSt)
  | 0, _, _ => .error fuelErr
  | fuel + 1, kind, st => do
    let (name, s1) ← consumeT st TType.ident ("Expect " ++ kind ++ " name.")
    let (_, s2) ← consumeT s1 TType.lparen ("Expect '(' after " ++ kind ++ " name.")
    if checkT s2 TType.rparen then do
      let (_, s3) ← consumeT s2 TType.rparen "Expect ')' after parameters."
      let (_, s4) ← consumeT s3 TType.lbrace ("Expect '\x7b' before " ++ kind ++ " body.")
      let (body, s5) ← pBlock fuel s4
      .ok (PStmt.funDecl name [] body, s5)
    else do
      let (params, s3) ← pParamsLoop fuel s2 []
      let (_, s4) ← consumeT s3 TType.rparen "Expect ')' after parameters."
      let (_, s5) ← consumeT s4 TType.lbrace ("Expect '\x7b' before " ++ kind ++ " body.")
      let (body, s6) ← pBlock fuel s5
      .ok (PStmt.funDecl name params body, s6)

/-- The parameter loop of `Parser.function`: `len(params) >= 255` raises
`"Can't have more than 255 parameters."` before the next name is consumed. -/
def pParamsLoop : Nat → PSt → List Token → Except PErr (List Token × PSt)
  | 0, _, _ => .error fuelErr
  | fuel + 1, st, params =>
    if params.length ≥ 255 then
      .error (errAt (peekT st) "Can't have more than 255 parameters.")
    else do
      let (p, s1) ← consumeT st TType.ident "Expect parameter name."
      let params1 := params ++ [p]
      let (m, s2) := matchT1 s1 TType.comma
      if m then pParamsLoop fuel s2 params1 else .ok (params1, s2)

/-- `Parser.var_declaration`. -/
def pVarDecl : Nat → PSt → Except PErr (PStmt × PSt)
  | 0, _ => .error fuelErr
  | fuel + 1, st => do
    let (name, s1) ← consumeT st TType.ident "Expect variable name."
    let (m, s2) := matchT1 s1 TType.equal
    if m then do
      let (e, s3) ← pExpression fuel s2
      let (_, s4) ← consumeT s3 TType.semicolon "Expect ';' after variable declaration."
      .ok (PStmt.varStmt name (some e), s4)
    else do
      let (_, s3) ← consumeT s2 TType.semicolon "Expect ';' after variable declaration."
      .ok (PStmt.varStmt name none, s3)

/-- `Parser.statement`. -/
def pStatement : Nat → PSt → Except PErr (PStmt × PSt)
  | 0, _ => .error fuelErr
  | fuel + 1, st =>
    let (mP, s1) := matchT1 st TType.kprint
    if mP then pPrintStmt fuel s1
    else
      let (mB, s2) := matchT1 st TType.lbrace
      if mB then do
        let (ss, s3) ← pBlock fuel s2
        .ok (PStmt.block ss, s3)
      else
        let (mI, s4) := matchT1 st TType.kif
        if mI then pIfStmt fuel s4
        else
          let (mW, s5) := matchT1 st TType.kwhile
          if mW then pWhileStmt fuel s5
          else
            let (mR, s6) := matchT1 st TType.kreturn
            if mR then pReturnStmt fuel s6
            else pExprStmt fuel st

/-- `Parser.return_statement` (entered with the `return` keyword consumed). -/
def pReturnStmt : Nat → PSt → Except PErr (PStmt × PSt)
  | 0, _ => .error fuelErr
  | fuel + 1, st =>
    let kw := prevT st
    if !(checkT st TType.semicolon) then do
      let (v, s1) ← pExpression fuel st
      let (_, s2) ← consumeT s1 TType.semicolon "Expect ';' after return value."
      .ok (PStmt.returnS kw (some v), s2)
    else do
      let (_, s1) ← consumeT st TType.semicolon "Expect ';' after return value."
      .ok (PStmt.returnS kw none, s1)

/-- `Parser.if_statement` (entered with `if` consumed). -/
def pIfStmt : Nat → PSt → Except PErr (PStmt × PSt)
  | 0, _ => .error fuelErr
  | fuel + 1, st => do
    let (_, s1) ← consumeT st TType.lparen "Expect '(' after 'if'."
    let (cond, s2) ← pExpression fuel s1
    let (_, s3) ← consumeT s2 TType.rparen "Expect ')' after if condition."
    let (thenB, s4) ← pStatement fuel s3
    let (mE, s5) := matchT1 s4 TType.kelse
    if mE then do
      let (elseB, s6) ← pStatement fuel s5
      .ok (PStmt.ifS cond thenB (some elseB), s6)
    else .ok (PStmt.ifS cond thenB none, s5)

/-- `Parser.while_statement` (entered with `while` consumed). -/
def pWhileStmt : Nat → PSt → Except PErr (PStmt × PSt)
  | 0, _ => .error fuelErr
  | fuel + 1, st => do
    let (_, s1) ← consumeT st TType.lparen "Expect '(' after 'while'."
    let (cond, s2) ← pExpression fuel s1
    let (_, s3) ← consumeT s2 TType.rparen "Expect ')' after condition."
    let (body, s4) ← pStatement fuel s3
    .ok (PStmt.whileS cond body, s4)

/-- `Parser.block`: the declarations up to the closing brace, which is then
consumed. -/
def pBlock : Nat → PSt → Except PErr (List PStmt × PSt)
  | 0, _ => .error fuelErr
  | fuel + 1, st => do
    let (ss, s1) ← pBlockLoop fuel st []
    let (_, s2) ← consumeT s1 TType.rbrace "Expect '\x7d' after block."
    .ok (ss, s2)

/-- The statement loop of `Parser.block`. -/
def pBlockLoop : Nat → PSt → List PStmt → Except PErr (List PStmt × PSt)
  | 0, _, _ => .error fuelErr
  | fuel + 1, st, acc =>
    if !(checkT st TType.rbrace) && !(isAtEndT st) then do
      let (d, s1) ← pDeclaration fuel st
      pBlockLoop fuel s1 (acc ++ [d])
    else .ok (acc, st)

/-- `Parser.print_statement`. -/
def pPrintStmt : Nat → PSt → Except PErr (PStmt × PSt)
  | 0, _ => .error fuelErr
  | fuel + 1, st => do
    let (e, s1) ← pExpression fuel st
    let (_, s2) ← consumeT s1 TType.semicolon "Expect ';' after value."
    .ok (PStmt.printStmt e, s2)

/-- `Parser.expression_statement`. -/
def pExprStmt : Nat → PSt → Except PErr (PStmt × PSt)
  | 0, _ => .error fuelErr
  | fuel + 1, st => do
    let (e, s1) ← pExpression fuel st
    let (_, s2) ← consumeT s1 TType.semicolon "Expect ';' after expression."
    .ok (PStmt.exprStmt e, s2)

end

/-- `Parser.parse`: top-level declarations until EOF. -/
def pProgram : Nat → PSt → List PStmt → Except PErr (List PStmt × PSt)
  | 0, _, _ => .error fuelErr
  | fuel + 1, st, acc =>
    if !(isAtEndT st) then
      match pDeclaration fuel st with
      | .ok (d, s1) => pProgram fuel s1 (acc ++ [d])
      | .error e => .error e
    else .ok (acc, st)

/-- Argument count of a call node (0 for other nodes). -/
def callArgCount : PExpr → Nat
  | .call _ _ args => args.length
  | _ => 0

/-- Argument count of a `new` node (0 for other nodes). -/
def newArgCount : PExpr → Nat
  | .newE _ args => args.length
  | _ => 0

/-- Parameter count of a function declaration (0 for other statements). -/
def stmtParamCount : PStmt → Nat
  | .funDecl _ params _ => params.length
  | _ => 0

/-! Concrete inputs used by witnesses and counterexamples.  All instance
states below are reachable: `freshC`/`itFresh` is the state right after
`var c = new C();` for a class without fields, and the others are annotated
with the O-script statements that produce them. -/

/-- A freshly constructed instance of a class `C` (empty fields, stacks and
checkpoint table), as `Interpreter.make_instance` builds it. -/
def freshC : InstState := ⟨"C", 1, [], [], [], []⟩

/-- The interpreter state right after that construction: one step consumed by
the `new` event. -/
def itFresh : Interp := ⟨1, [Event.newE 1 "C#1"], 2⟩

/-- `c.x = 1;` on the fresh instance. -/
def c1afterSet : InstState × Interp := setOp freshC itFresh "x" (OValue.num 1) 3

/-- `c.undo();` next — the future stack now holds the inverted patch. -/
def c1afterUndo : Except Err Unit × InstState × Interp :=
  undoOp c1afterSet.1 c1afterSet.2 4

/-- `c.checkpoint("k");` next. -/
def c1afterCp : InstState × Interp :=
  checkpointOp c1afterUndo.2.1 c1afterUndo.2.2 (OValue.str "k") 5

/-- An instance with one field and a stored checkpoint `"k"` (e.g. after
`c.a = 1; c.checkpoint("k");` modulo the checkpoint's captured map). -/
def c1wSt : InstState := ⟨"C", 1, [("a", OValue.num 1)], [], [], [("k", [])]⟩

/-- An instance whose live map and checkpoint only hold JSON-primitive
values: `p.a = 2; p.b = 9;` with a checkpoint `"s"` captured at `a = 1`. -/
def c2wSt : InstState :=
  ⟨"P", 1, [("a", OValue.num 2), ("b", OValue.num 9)], [], [],
    [("s", [("a", OValue.num 1)])]⟩

/-- Interpreter state to go with `c2wSt`. -/
def c2wIt : Interp := ⟨5, [], 2⟩

/-- Reachable via `var a = new A(); var b = new B(); b.checkpoint("k");
b.p = a;` — an instance-valued field next to a checkpoint of the empty map. -/
def c2cexSt : InstState :=
  ⟨"B", 2, [("p", OValue.instRef "A" 1)],
    [⟨"p", PatchVal.undef, PatchVal.val (OValue.instRef "A" 1), 3, 5⟩], [],
    [("k", [])]⟩

/-- Interpreter state to go with `c2cexSt`. -/
def c2cexIt : Interp := ⟨3, [], 3⟩

/-- Two writes to the same field: `c.x = 1; c.x = 2;`. -/
def c3S : List Write := [("x", OValue.num 1, 3), ("x", OValue.num 2, 4)]

/-- A single write to a field literally named `__snapshot__`
(`c.__snapshot__ = 1;`, a legal O-script property assignment). -/
def c3poison : List Write := [("__snapshot__", OValue.num 1, 3)]

/-- An instance with one written field, as after `p.a = 1;`. -/
def c4st : InstState :=
  ⟨"P", 1, [("a", OValue.num 1)],
    [⟨"a", PatchVal.undef, PatchVal.val (OValue.num 1), 2, 2⟩], [], []⟩

/-- Interpreter state to go with `c4st`. -/
def c4it : Interp := ⟨2, [], 2⟩

/-- Interleaved history: `p.b = 9; p.undo(); p.redo();`. -/
def c4ops : List HOp :=
  [HOp.setH "b" (OValue.num 9) 3, HOp.undoH 4, HOp.redoH 5]

/-- A class with one declared method `inc`. -/
def c7cls : ClassInfo := ⟨"C", ["inc"]⟩

/-- An identifier token on line 1. -/
def identTok (s : String) : Token := ⟨TType.ident, s, none, 1⟩

/-- `n` repetitions of the two tokens `a ,`. -/
def commaSepA : Nat → List Token
  | 0 => []
  | n + 1 => identTok "a" :: Token.mk TType.comma "," none 1 :: commaSepA n

/-- Token stream of `new C(a, a, ..., a)` with 256 arguments. -/
def newToks256 : List Token :=
  Token.mk TType.knew "new" none 1 :: identTok "C" ::
    Token.mk TType.lparen "(" none 1 ::
    (commaSepA 255 ++ [identTok "a", Token.mk TType.rparen ")" none 1,
      Token.mk TType.eof "" none 1])

/-- Token stream of `f(a, a, ..., a)` with 256 arguments. -/
def callToks256 : List Token :=
  identTok "f" :: Token.mk TType.lparen "(" none 1 ::
    (commaSepA 255 ++ [identTok "a", Token.mk TType.rparen ")" none 1,
      Token.mk TType.eof "" none 1])

/-- Token stream of `f(a, a, ..., a) {}` (after `fun`) with 256 parameters. -/
def funToks256 : List Token :=
  identTok "f" :: Token.mk TType.lparen "(" none 1 ::
    (commaSepA 255 ++ [identTok "a", Token.mk TType.rparen ")" none 1,
      Token.mk TType.lbrace "\x7b" none 1, Token.mk TType.rbrace "\x7d" none 1,
      Token.mk TType.eof "" none 1])

/-- Parser state at the argument list of a two-argument call `f(a, a);`. -/
def c5wSt : PSt :=
  ⟨[identTok "a", Token.mk TType.comma "," none 1, identTok "a",
    Token.mk TType.rparen ")" none 1, Token.mk TType.eof "" none 1],
    Token.mk TType.lparen "(" none 1⟩

/-- The successful parse result of that call (total extraction for the
witness; the error branch is not reached). -/
def c5wPair : PExpr × PSt :=
  match pFinishCall 50 (PExpr.variable (identTok "f")) c5wSt with
  | .ok r => r
  | .error _ => (PExpr.lit OValue.nil, ⟨[], eofTokenD⟩)

/-- Token stream of `f(a) {}` (after `fun`). -/
def c5wFunToks : List Token :=
  [identTok "f", Token.mk TType.lparen "(" none 1, identTok "a",
    Token.mk TType.rparen ")" none 1, Token.mk TType.lbrace "\x7b" none 1,
    Token.mk TType.rbrace "\x7d" none 1, Token.mk TType.eof "" none 1]

/-- The successful parse result of that function declaration. -/
def c5wFunPair : PStmt × PSt :=
  match pFunction 50 "function" ⟨c5wFunToks, eofTokenD⟩ with
  | .ok r => r
  | .error _ => (PStmt.block [], ⟨[], eofTokenD⟩)

/-- The patch that `OInstance.set` pushes when writing `v` to field `f` of a
map `flds` at step `stp` (named for the proofs below; it is definitionally
the patch built inside `setOp`). -/
def setPatch (flds : FieldMap) (stp : Nat) (f : String) (v : OValue) (l : Nat) :
    Patch :=
  ⟨f, (match alLookup flds f with
       | some v0 => PatchVal.val v0
       | none => PatchVal.undef), PatchVal.val v, stp, l⟩

/-! Association-list lemmas: the Python-dict behaviour of
`alLookup`/`alInsert`/`alDelete` needed by the history proofs. -/

/-- Looking up a key right after inserting it yields the inserted value. -/
theorem alLookup_alInsert_self {α : Type} (m : List (String × α)) (k : String)
    (v : α) : alLookup (alInsert m k v) k = some v := by
  induction m with
  | nil => simp [alInsert, alLookup]
  | cons kv rest ih =>
    obtain ⟨k', v'⟩ := kv
    by_cases h : k' = k
    · simp [alInsert, h, alLookup]
    · simp [alInsert, h, alLookup, ih]

/-- Overwriting a present key and then writing its original value back
restores the map (Python dict update-in-place). -/
theorem alInsert_restore {α : Type} (m : List (String × α)) (k : String)
    (v0 v1 : α) (h : alLookup m k = some v0) :
    alInsert (alInsert m k v1) k v0 = m := by
  induction m with
  | nil => simp [alLookup] at h
  | cons kv rest ih =>
    obtain ⟨k', v'⟩ := kv
    by_cases hk : k' = k
    · subst hk
      simp [alLookup] at h
      simp [alInsert, h]
    · simp [alLookup, hk] at h
      simp [alInsert, hk, ih h]

/-- Deleting a freshly appended key from a map that did not contain it
restores the map. -/
theorem alDelete_alInsert_absent {α : Type} (m : List (String × α)) (k : String)
    (v : α) (h : alLookup m k = none) :
    alDelete (alInsert m k v) k = m := by
  induction m with
  | nil => simp [alInsert, alDelete]
  | cons kv rest ih =>
    obtain ⟨k', v'⟩ := kv
    by_cases hk : k' = k
    · simp [alLookup, hk] at h
    · simp [alLookup, hk] at h
      simp [alInsert, hk, alDelete, List.filter_cons]
      simpa [alDelete] using ih h

/-- Claim C1, amended: immediately after a `set` or after a successful
`rollback` completes, the instance's future patch stack is empty; a
`checkpoint` leaves both the past and the future stacks unchanged (so the
future stack is empty after a `checkpoint` only when it already was). -/
theorem c1_set_rollback_clear_future_checkpoint_preserves :
    (∀ (st : InstState) (it : Interp) (f : String) (v : OValue) (l : Nat),
      ((setOp st it f v l).1).future = []) ∧
    (∀ (st : InstState) (it : Interp) (label : OValue) (l : Nat),
      (rollbackOp st it label l).1 = .ok () →
      ((rollbackOp st it label l).2.1).future = []) ∧
    (∀ (st : InstState) (it : Interp) (label : OValue) (l : Nat),
      ((checkpointOp st it label l).1).future = st.future ∧
      ((checkpointOp st it label l).1).past = st.past) := by
  refine ⟨fun st it f v l => rfl, fun st it label l h => ?_,
    fun st it label l => ⟨rfl, rfl⟩⟩
  simp only [rollbackOp] at h ⊢
  cases hcp : alLookup st.checkpoints (coerceLabel label) with
  | none => rw [hcp] at h; simp at h
  | some m => rfl

/-- Claim C1 counterexample: after the reachable sequence `c.x = 1;
c.undo(); c.checkpoint("k");` the future stack still holds the undone patch,
so it is not empty immediately after the `checkpoint` completes. -/
theorem c1_counterexample : c1afterCp.1.future ≠ [] := by decide

/-- Claim C1 witness: the rollback conjunct at a concrete state with a
stored checkpoint. -/
theorem c1_witness :
    (rollbackOp c1wSt itFresh (OValue.str "k") 2).1 = .ok () ∧
    ((rollbackOp c1wSt itFresh (OValue.str "k") 2).2.1).future = [] :=
  ⟨by decide,
    c1_set_rollback_clear_future_checkpoint_preserves.2.1 c1wSt itFresh
      (OValue.str "k") 2 (by decide)⟩

/-- Claim C6 (code bug): evaluating the `Binary` expression `true - 1`
returns the number 0 instead of raising "Operands must be numbers", because
Python's `isinstance(True, int)` makes `check_number_operands` accept
booleans even though the interpreter's own `type()` reports them as `bool`.
-/
theorem c6_bool_operand_not_rejected :
    evalBinary TType.minus 7 (OValue.bool true) (OValue.num 1) =
      .ok (OValue.num 0) := by
  show Except.ok (OValue.num ((1 : ℚ) - 1)) = Except.ok (OValue.num 0)
  norm_num

/-- Claim C7: for each of the seven built-in names, `OInstance.get` resolves
a live field first, then a declared method, and synthesizes the built-in
native function only when neither exists — so user fields and methods shadow
the built-ins. -/
theorem c7_builtin_resolution_order (cls : ClassInfo) (fields : FieldMap)
    (name : String) (line : Nat)
    (hb : name ∈ ["undo", "redo", "history", "id", "checkpoint", "rollback",
      "checkpoints"]) :
    (∀ v, alLookup fields name = some v →
      instGet cls fields name line = .ok (.fieldVal v)) ∧
    (alLookup fields name = none → cls.methods.contains name = true →
      instGet cls fields name line = .ok (.boundMethod name)) ∧
    (alLookup fields name = none → cls.methods.contains name = false →
      instGet cls fields name line = .ok (.builtin (cls.name ++ "." ++ name)
        (if name = "checkpoint" ∨ name = "rollback" then 1 else 0))) := by
  refine ⟨fun v hv => ?_, fun hv hm => ?_, fun hv hm => ?_⟩
  · simp [instGet, hv]
  · have hm' : name ∈ cls.methods := by simpa using hm
    simp [instGet, hv, hm']
  · have hm' : ¬ name ∈ cls.methods := by simpa using hm
    fin_cases hb <;> simp [instGet, hv, hm', String.append_assoc]

/-- Claim C7 witness: a field named `undo` shadows the built-in. -/
theorem c7_witness :
    ("undo" ∈ ["undo", "redo", "history", "id", "checkpoint", "rollback",
      "checkpoints"]) ∧
    instGet c7cls [("undo", OValue.num 5)] "undo" 1 =
      .ok (.fieldVal (OValue.num 5)) :=
  ⟨by decide,
    (c7_builtin_resolution_order c7cls [("undo", OValue.num 5)] "undo" 1
      (by decide)).1 (OValue.num 5) rfl⟩

/-- Claim C8: `rollback` on a label with no stored checkpoint raises a
runtime error whose message names the (coerced) label, and returns with the
instance state and the interpreter state (step counter and trace) exactly as
they were: no field, stack or checkpoint change, no step consumed, no event
appended, and the events already in the trace still there. -/
theorem c8_rollback_unknown_label (st : InstState) (it : Interp)
    (label : OValue) (line : Nat)
    (h : alLookup st.checkpoints (coerceLabel label) = none) :
    rollbackOp st it label line =
      (.error (.runtimeError line
        ("No checkpoint named '" ++ coerceLabel label ++ "'.")), st, it) := by
  simp only [rollbackOp]
  rw [h]

/-- Claim C8 witness: `c.rollback("nope");` on a fresh instance whose trace
already holds the `new` event. -/
theorem c8_witness :
    alLookup freshC.checkpoints (coerceLabel (OValue.str "nope")) = none ∧
    rollbackOp freshC itFresh (OValue.str "nope") 1 =
      (.error (.runtimeError 1 "No checkpoint named 'nope'."), freshC, itFresh) :=
  ⟨rfl, c8_rollback_unknown_label freshC itFresh (OValue.str "nope") 1 rfl⟩

/-- Claim C9: with the callee evaluated to a class and the arguments
evaluated, the ordinary-call branch of `evaluate` behaves exactly like the
`new`-expression branch: the same arity check with the same message, and on
success the same construction (fresh instance, `new` event, bound `init`
run, instance as result), for every possible initializer behaviour
`runInit`. -/
theorem c9_call_class_eq_new (runInit : InstState → Interp → List OValue →
      InstState × Interp) (c : OClassH) (it : Interp) (args : List OValue)
    (line : Nat) :
    evalCallOnClass runInit c it args line =
      evalNewOnClass runInit c it args line := by
  have h : (c.arity : Int) ≠ -1 := by omega
  simp [evalCallOnClass, evalNewOnClass, h]

/-- Claim C10: `rollback` coerces its label exactly as `checkpoint` does, so
for every value `v` a `checkpoint(v)` immediately followed by `rollback(v)`
succeeds and restores precisely the map the checkpoint stored (the live map
at checkpoint time). -/
theorem c10_rollback_label_coercion_matches_checkpoint (st : InstState)
    (it : Interp) (v : OValue) (l1 l2 : Nat) :
    ∃ st2 it2,
      rollbackOp (checkpointOp st it v l1).1 (checkpointOp st it v l1).2 v l2 =
        (.ok (), st2, it2) ∧
      st2.fields = st.fields := by
  have h := alLookup_alInsert_self st.checkpoints (coerceLabel v) st.fields
  simp only [checkpointOp, rollbackOp, h]
  exact ⟨_, _, rfl, rfl⟩

/-- `set` does not touch the checkpoint table. -/
theorem setOp_checkpoints (st : InstState) (it : Interp) (f : String)
    (v : OValue) (l : Nat) :
    ((setOp st it f v l).1).checkpoints = st.checkpoints := rfl

/-- `undo` does not touch the checkpoint table (in any of its branches,
including the failing ones). -/
theorem undoOp_checkpoints (st : InstState) (it : Interp) (l : Nat) :
    ((undoOp st it l).2.1).checkpoints = st.checkpoints := by
  obtain ⟨cn, idn, fl, past, fut, cp⟩ := st
  cases past with
  | nil => rfl
  | cons p rest =>
    simp only [undoOp]
    by_cases h : p.field = "__snapshot__" <;> simp only [h, if_true, if_false, ite_true, ite_false]
    · cases dictOfPy p.old with
      | error e => rfl
      | ok m => cases serializePV p.new <;> cases serializePV p.old <;> rfl
    · cases serializePV p.new <;> cases serializePV p.old <;> rfl

/-- `redo` does not touch the checkpoint table. -/
theorem redoOp_checkpoints (st : InstState) (it : Interp) (l : Nat) :
    ((redoOp st it l).2.1).checkpoints = st.checkpoints := by
  obtain ⟨cn, idn, fl, past, fut, cp⟩ := st
  cases fut with
  | nil => rfl
  | cons p rest =>
    simp only [redoOp]
    by_cases h : p.field = "__snapshot__" <;> simp only [h, if_true, if_false, ite_true, ite_false]
    · cases dictOfPy p.new with
      | error e => rfl
      | ok m => cases serializePV p.old <;> cases serializePV p.new <;> rfl
    · cases serializePV p.old <;> cases serializePV p.new <;> rfl

/-- No interleaving of writes, undos and redos touches the checkpoint table
(whether it completes or aborts). -/
theorem applyOps_checkpoints (ops : List HOp) : ∀ (st : InstState) (it : Interp),
    (((applyOps ops st it).2.1)).checkpoints = st.checkpoints := by
  induction ops with
  | nil => intro st it; rfl
  | cons op rest ih =>
    intro st it
    cases op with
    | setH f v l =>
      simp only [applyOps]
      rw [ih]
      rfl
    | undoH l =>
      have hc := undoOp_checkpoints st it l
      simp only [applyOps]
      rcases hu : undoOp st it l with ⟨r, st', it'⟩
      rw [hu] at hc
      cases r with
      | ok u => rw [ih]; exact hc
      | error e => exact hc
    | redoH l =>
      have hc := redoOp_checkpoints st it l
      simp only [applyOps]
      rcases hu : redoOp st it l with ⟨r, st', it'⟩
      rw [hu] at hc
      cases r with
      | ok u => rw [ih]; exact hc
      | error e => exact hc

/-- Claim C4: after `checkpoint(label)` captures the live map, any completed
interleaving of field writes, undos and redos still leaves the checkpoint
entry intact, so a later `rollback(label)` succeeds and sets the live map to
exactly the captured map (in particular, fields added in between are
gone). -/
theorem c4_rollback_restores_checkpointed_map (st : InstState) (it : Interp)
    (label : OValue) (l1 l2 : Nat) (ops : List HOp) (st2 : InstState)
    (it2 : Interp)
    (h : applyOps ops (checkpointOp st it label l1).1
      (checkpointOp st it label l1).2 = (.ok (), st2, it2)) :
    ∃ st3 it3, rollbackOp st2 it2 label l2 = (.ok (), st3, it3) ∧
      st3.fields = st.fields := by
  have hcp : st2.checkpoints =
      alInsert st.checkpoints (coerceLabel label) st.fields := by
    have hpres := applyOps_checkpoints ops (checkpointOp st it label l1).1
      (checkpointOp st it label l1).2
    rw [h] at hpres
    simpa [checkpointOp] using hpres
  have hlook : alLookup st2.checkpoints (coerceLabel label) = some st.fields := by
    rw [hcp]; exact alLookup_alInsert_self _ _ _
  simp only [rollbackOp, hlook]
  exact ⟨_, _, rfl, rfl⟩

/-- Claim C4 witness: `p.a = 1; p.checkpoint("s"); p.b = 9; p.undo();
p.redo(); p.rollback("s");` restores `a = 1` (and removes `b`). -/
theorem c4_witness :
    (applyOps c4ops (checkpointOp c4st c4it (OValue.str "s") 2).1
        (checkpointOp c4st c4it (OValue.str "s") 2).2 =
      (.ok (),
        (applyOps c4ops (checkpointOp c4st c4it (OValue.str "s") 2).1
          (checkpointOp c4st c4it (OValue.str "s") 2).2).2.1,
        (applyOps c4ops (checkpointOp c4st c4it (OValue.str "s") 2).1
          (checkpointOp c4st c4it (OValue.str "s") 2).2).2.2)) ∧
    (∃ st3 it3,
      rollbackOp
        (applyOps c4ops (checkpointOp c4st c4it (OValue.str "s") 2).1
          (checkpointOp c4st c4it (OValue.str "s") 2).2).2.1
        (applyOps c4ops (checkpointOp c4st c4it (OValue.str "s") 2).1
          (checkpointOp c4st c4it (OValue.str "s") 2).2).2.2
        (OValue.str "s") 9 = (.ok (), st3, it3) ∧
      st3.fields = c4st.fields) :=
  ⟨by decide,
    c4_rollback_restores_checkpointed_map c4st c4it (OValue.str "s") 2 9 c4ops
      _ _ (by decide)⟩

/-- Claim C2, amended: when every value in the pre-rollback live map and in
the checkpoint snapshot is a JSON-primitive (nil, boolean, number or
string), a successful `rollback` pushes exactly one patch on the past stack,
one `undo` completes and restores the pre-rollback live map, and one `redo`
then completes and restores the rolled-back-to map.  (Reference-like field
values instead make the undo/redo of the snapshot patch raise a `TypeError`
while the trace event serializes the raw snapshot dicts.) -/
theorem c2_rollback_one_undo_one_redo (st : InstState) (it : Interp)
    (label : OValue) (l1 l2 l3 : Nat) (m : FieldMap)
    (hcp : alLookup st.checkpoints (coerceLabel label) = some m)
    (hsafe1 : ∀ kv ∈ st.fields, jsonSafe kv.2 = true)
    (hsafe2 : ∀ kv ∈ m, jsonSafe kv.2 = true) :
    ∃ st1 it1, rollbackOp st it label l1 = (.ok (), st1, it1) ∧
      st1.past.length = st.past.length + 1 ∧ st1.fields = m ∧
      ∃ st2 it2, undoOp st1 it1 l2 = (.ok (), st2, it2) ∧
        st2.fields = st.fields ∧
        ∃ st3 it3, redoOp st2 it2 l3 = (.ok (), st3, it3) ∧
          st3.fields = st1.fields := by
  have hall1 : st.fields.all (fun kv => jsonSafe kv.2) = true :=
    List.all_eq_true.mpr hsafe1
  have hall2 : m.all (fun kv => jsonSafe kv.2) = true :=
    List.all_eq_true.mpr hsafe2
  simp only [rollbackOp, hcp]
  refine ⟨_, _, rfl, by simp, rfl, ?_⟩
  simp only [undoOp, if_pos rfl, dictOfPy, serializePV, jsonDumpsFields,
    hall1, hall2, if_true, ite_true]
  refine ⟨_, _, rfl, rfl, ?_⟩
  simp only [redoOp, if_pos rfl, dictOfPy, serializePV, jsonDumpsFields,
    hall1, hall2, if_true, ite_true]
  exact ⟨_, _, rfl, rfl⟩

/-- Claim C2 counterexample: on the reachable state `c2cexSt` (an
instance-valued field `p`, checkpoint `"k"` capturing the empty map) the
rollback succeeds, but the single following `undo()` raises a Python
`TypeError` (its trace event `json.dumps`-serializes the raw pre-rollback
snapshot, which holds an instance), so the claimed undo/redo round trip
cannot complete. -/
theorem c2_counterexample :
    (rollbackOp c2cexSt c2cexIt (OValue.str "k") 6).1 = .ok () ∧
    (undoOp (rollbackOp c2cexSt c2cexIt (OValue.str "k") 6).2.1
      (rollbackOp c2cexSt c2cexIt (OValue.str "k") 6).2.2 7).1 =
      .error .typeError := by decide

/-- Claim C2 witness: the amended theorem at a concrete state with numeric
fields. -/
theorem c2_witness :
    alLookup c2wSt.checkpoints (coerceLabel (OValue.str "s")) =
      some [("a", OValue.num 1)] ∧
    (∃ st1 it1, rollbackOp c2wSt c2wIt (OValue.str "s") 6 = (.ok (), st1, it1) ∧
      st1.past.length = c2wSt.past.length + 1 ∧
      st1.fields = [("a", OValue.num 1)] ∧
      ∃ st2 it2, undoOp st1 it1 7 = (.ok (), st2, it2) ∧
        st2.fields = c2wSt.fields ∧
        ∃ st3 it3, redoOp st2 it2 8 = (.ok (), st3, it3) ∧
          st3.fields = st1.fields) :=
  ⟨rfl,
    c2_rollback_one_undo_one_redo c2wSt c2wIt (OValue.str "s") 6 7 8
      [("a", OValue.num 1)] rfl (by decide) (by decide)⟩

/-- The instance state produced by `set`, expressed with `setPatch`. -/
theorem setOp_fst (st : InstState) (it : Interp) (f : String) (v : OValue)
    (l : Nat) :
    (setOp st it f v l).1 =
      ⟨st.className, st.id, alInsert st.fields f v,
        setPatch st.fields (it.step + 1) f v l :: st.past, [],
        st.checkpoints⟩ := rfl

/-- Undoing right after a `set` patch pops it, restores the field (put back
or deleted), and moves the patch to the top of the future stack. -/
theorem undo_after_set (cn : String) (idn : Nat) (flds : FieldMap)
    (past fut : List Patch) (cp : List (String × FieldMap)) (stp : Nat)
    (itx : Interp) (f : String) (v : OValue) (l : Nat)
    (hf : f ≠ "__snapshot__") :
    ∃ itf, undoOp ⟨cn, idn, alInsert flds f v,
        setPatch flds stp f v l :: past, fut, cp⟩ itx 0 =
      (.ok (), ⟨cn, idn, flds, past, setPatch flds stp f v l :: fut, cp⟩,
        itf) := by
  cases hlook : alLookup flds f with
  | some v0 =>
    simp only [undoOp, setPatch, hlook, if_neg hf, serializePV]
    rw [alInsert_restore flds f v0 v hlook]
    exact ⟨_, rfl⟩
  | none =>
    simp only [undoOp, setPatch, hlook, if_neg hf, serializePV]
    rw [alDelete_alInsert_absent flds f v hlook]
    exact ⟨_, rfl⟩

/-- Redoing a `set` patch from the top of the future stack reinstalls the
written value and pushes the patch back onto the past stack. -/
theorem redo_set_patch (cn : String) (idn : Nat) (flds : FieldMap)
    (past fut : List Patch) (cp : List (String × FieldMap)) (stp : Nat)
    (itx : Interp) (f : String) (v : OValue) (l : Nat)
    (hf : f ≠ "__snapshot__") :
    ∃ itf, redoOp ⟨cn, idn, flds, past, setPatch flds stp f v l :: fut, cp⟩
        itx 0 =
      (.ok (), ⟨cn, idn, alInsert flds f v,
        setPatch flds stp f v l :: past, fut, cp⟩, itf) := by
  cases hlook : alLookup flds f with
  | some v0 =>
    simp only [redoOp, setPatch, hlook, if_neg hf, serializePV]
    exact ⟨_, rfl⟩
  | none =>
    simp only [redoOp, setPatch, hlook, if_neg hf, serializePV]
    exact ⟨_, rfl⟩

/-- Peeling the last of `n + 1` undos: it is the undo performed after the
first `n`. -/
theorem undoN_succ (n : Nat) : ∀ (st : InstState) (it : Interp),
    undoN (n + 1) st it =
      match undoN n st it with
      | (.ok _, st', it') => undoOp st' it' 0
      | (.error e, st', it') => (.error e, st', it') := by
  induction n with
  | zero =>
    intro st it
    simp only [undoN]
    rcases hu : undoOp st it 0 with ⟨r, st', it'⟩
    cases r with
    | ok u => rfl
    | error e => rfl
  | succ n ih =>
    intro st it
    simp only [undoN]
    rcases hu : undoOp st it 0 with ⟨r, st', it'⟩
    cases r with
    | ok u => exact ih st' it'
    | error e => rfl

/-- Round-trip workhorse: writes that avoid the reserved `__snapshot__`
marker are fully unwound by as many undos (restoring the fields and the past
stack), and the resulting future stack redoes back to the post-writes field
map, whatever the interpreter state at each step. -/
theorem roundtrip_aux (S : List Write) :
    ∀ (st : InstState) (it : Interp), (∀ w ∈ S, w.1 ≠ "__snapshot__") →
    ∃ (fut : List Patch) (itu : Interp),
      undoN S.length (applyWrites st it S).1 (applyWrites st it S).2 =
        (.ok (), ⟨st.className, st.id, st.fields, st.past, fut,
          st.checkpoints⟩, itu) ∧
      ∀ it2 : Interp, ∃ (stf : InstState) (itf : Interp),
        redoN S.length ⟨st.className, st.id, st.fields, st.past, fut,
          st.checkpoints⟩ it2 = (.ok (), stf, itf) ∧
        stf.fields = (applyWrites st it S).1.fields := by
  induction S with
  | nil =>
    intro st it _
    exact ⟨st.future, it, rfl, fun it2 => ⟨_, it2, rfl, rfl⟩⟩
  | cons w ws ih =>
    intro st it hs
    obtain ⟨f, v, l⟩ := w
    have hf : f ≠ "__snapshot__" := by simpa using hs (f, v, l) (by simp)
    have hs' : ∀ w' ∈ ws, w'.1 ≠ "__snapshot__" :=
      fun w' hw => hs w' (by simp [hw])
    obtain ⟨fut, itu, hU, hR⟩ :=
      ih (setOp st it f v l).1 (setOp st it f v l).2 hs'
    obtain ⟨itf, hUndo⟩ := undo_after_set st.className st.id st.fields st.past
      fut st.checkpoints (it.step + 1) itu f v l hf
    refine ⟨setPatch st.fields (it.step + 1) f v l :: fut, itf, ?_, ?_⟩
    · show undoN (ws.length + 1) (applyWrites (setOp st it f v l).1
        (setOp st it f v l).2 ws).1 (applyWrites (setOp st it f v l).1
        (setOp st it f v l).2 ws).2 = _
      rw [undoN_succ ws.length, hU]
      exact hUndo
    · intro it2
      obtain ⟨itf2, hRedo⟩ := redo_set_patch st.className st.id st.fields
        st.past fut st.checkpoints (it.step + 1) it2 f v l hf
      obtain ⟨stf, itf3, hRN, hFeq⟩ := hR itf2
      refine ⟨stf, itf3, ?_, hFeq⟩
      show (match redoOp ⟨st.className, st.id, st.fields, st.past,
        setPatch st.fields (it.step + 1) f v l :: fut, st.checkpoints⟩ it2 0 with
        | (.ok _, st', it') => redoN ws.length st' it'
        | (.error e, st', it') => (.error e, st', it')) = (.ok (), stf, itf3)
      rw [hRedo]
      exact hRN

/-- Claim C3, amended: for every sequence `S` of field writes to fields
whose name is not the reserved snapshot marker `__snapshot__`, starting from
any state with an empty future stack, `undo()` applied `|S|` times followed
by `redo()` applied `|S|` times completes and yields a live field map equal
to the map that held immediately after `S`.  (A write to a field literally
named `__snapshot__` instead makes the first undo of its patch crash with a
Python `TypeError`, because `_undo` treats the patch as a snapshot patch and
calls `dict()` on its non-dict old value.) -/
theorem c3_writes_undo_redo_roundtrip (st : InstState) (it : Interp)
    (S : List Write) (hfut : st.future = [])
    (hs : ∀ w ∈ S, w.1 ≠ "__snapshot__") :
    ∃ (stu stf : InstState) (itu itf : Interp),
      undoN S.length (applyWrites st it S).1 (applyWrites st it S).2 =
        (.ok (), stu, itu) ∧
      redoN S.length stu itu = (.ok (), stf, itf) ∧
      stf.fields = (applyWrites st it S).1.fields := by
  obtain ⟨fut, itu, hU, hR⟩ := roundtrip_aux S st it hs
  obtain ⟨stf, itf, hRN, hFeq⟩ := hR itu
  exact ⟨_, stf, itu, itf, hU, hRN, hFeq⟩

/-- Claim C3 counterexample: from a fresh instance (empty future stack), the
single-write sequence `c.__snapshot__ = 1;` cannot be undone — the undo
phase of the round trip aborts with a Python `TypeError` instead of
restoring anything. -/
theorem c3_counterexample :
    freshC.future = [] ∧
    (undoN 1 (applyWrites freshC itFresh c3poison).1
      (applyWrites freshC itFresh c3poison).2).1 = .error .typeError := by
  constructor
  · rfl
  · decide

/-- Claim C3 witness: the amended round trip on `c.x = 1; c.x = 2;` from a
fresh instance. -/
theorem c3_witness :
    freshC.future = [] ∧ (∀ w ∈ c3S, w.1 ≠ "__snapshot__") ∧
    (∃ (stu stf : InstState) (itu itf : Interp),
      undoN c3S.length (applyWrites freshC itFresh c3S).1
        (applyWrites freshC itFresh c3S).2 = (.ok (), stu, itu) ∧
      redoN c3S.length stu itu = (.ok (), stf, itf) ∧
      stf.fields = (applyWrites freshC itFresh c3S).1.fields) :=
  ⟨rfl, by decide,
    c3_writes_undo_redo_roundtrip freshC itFresh c3S rfl (by decide)⟩

/-- Bind of a successful `Except` computation. -/
theorem exceptBind_ok {ε α β : Type} (a : α) (f : α → Except ε β) :
    ((Except.ok a : Except ε α) >>= f) = f a := rfl

/-- Bind of a failed `Except` computation. -/
theorem exceptBind_error {ε α β : Type} (e : ε) (f : α → Except ε β) :
    ((Except.error e : Except ε α) >>= f) = Except.error e := rfl

/-- Any successful run of `finish_call`'s argument loop returns at most 255
arguments: the loop raises before parsing a 256th. -/
theorem pArgsLoop_le (fuel : Nat) : ∀ (st : PSt) (args args' : List PExpr)
    (st' : PSt), pArgsLoop fuel st args = .ok (args', st') →
    args'.length ≤ 255 := by
  induction fuel with
  | zero => intro st args args' st' h; simp [pArgsLoop] at h
  | succ fuel ih =>
    intro st args args' st' h
    by_cases hlen : args.length ≥ 255
    · simp [pArgsLoop, hlen] at h
    · simp only [pArgsLoop, hlen, if_false, ite_false] at h
      cases hex : pExpression fuel st with
      | error e => rw [hex, exceptBind_error] at h; exact absurd h (by simp)
      | ok res =>
        rw [hex, exceptBind_ok] at h
        by_cases hm : (matchT1 res.2 TType.comma).1 = true
        · rw [if_pos hm] at h
          exact ih _ _ _ _ h
        · rw [if_neg hm] at h
          cases h
          simp
          omega

/-- Any successful run of `function`'s parameter loop returns at most 255
parameters. -/
theorem pParamsLoop_le (fuel : Nat) : ∀ (st : PSt) (params params' : List Token)
    (st' : PSt), pParamsLoop fuel st params = .ok (params', st') →
    params'.length ≤ 255 := by
  induction fuel with
  | zero => intro st params params' st' h; simp [pParamsLoop] at h
  | succ fuel ih =>
    intro st params params' st' h
    by_cases hlen : params.length ≥ 255
    · simp [pParamsLoop, hlen] at h
    · simp only [pParamsLoop, hlen, if_false, ite_false] at h
      cases hc : consumeT st TType.ident "Expect parameter name." with
      | error e => rw [hc, exceptBind_error] at h; exact absurd h (by simp)
      | ok res =>
        rw [hc, exceptBind_ok] at h
        by_cases hm : (matchT1 res.2 TType.comma).1 = true
        · rw [if_pos hm] at h
          exact ih _ _ _ _ h
        · rw [if_neg hm] at h
          cases h
          simp
          omega

/-- Any call expression `finish_call` successfully produces carries at most
255 arguments. -/
theorem pFinishCall_le (fuel : Nat) (callee : PExpr) (st : PSt) (e : PExpr)
    (st' : PSt) (h : pFinishCall fuel callee st = .ok (e, st')) :
    callArgCount e ≤ 255 := by
  cases fuel with
  | zero => simp [pFinishCall] at h
  | succ fuel =>
    by_cases hr : checkT st TType.rparen = true
    · simp only [pFinishCall, hr, if_true, ite_true] at h
      cases hc : consumeT st TType.rparen "Expect ')' after arguments." with
      | error pe => rw [hc, exceptBind_error] at h; exact absurd h (by simp)
      | ok r =>
        rw [hc, exceptBind_ok] at h
        cases h
        simp [callArgCount]
    · simp only [pFinishCall, hr, if_false, ite_false] at h
      cases ha : pArgsLoop fuel st [] with
      | error pe => rw [ha, exceptBind_error] at h; exact absurd h (by simp)
      | ok r =>
        rw [ha, exceptBind_ok] at h
        cases hc : consumeT r.2 TType.rparen "Expect ')' after arguments." with
        | error pe => rw [hc, exceptBind_error] at h; exact absurd h (by simp)
        | ok r2 =>
          rw [hc, exceptBind_ok] at h
          cases h
          simpa [callArgCount] using pArgsLoop_le fuel st [] r.1 r.2 (by rw [ha])

/-- Any function or method declaration `Parser.function` successfully
produces carries at most 255 parameters. -/
theorem pFunction_le (fuel : Nat) (kind : String) (st : PSt) (s : PStmt)
    (st' : PSt) (h : pFunction fuel kind st = .ok (s, st')) :
    stmtParamCount s ≤ 255 := by
  cases fuel with
  | zero => simp [pFunction] at h
  | succ fuel =>
    simp only [pFunction] at h
    cases hn : consumeT st TType.ident ("Expect " ++ kind ++ " name.") with
    | error pe => rw [hn, exceptBind_error] at h; exact absurd h (by simp)
    | ok r1 =>
      rw [hn, exceptBind_ok] at h
      cases hl : consumeT r1.2 TType.lparen ("Expect '(' after " ++ kind ++ " name.") with
      | error pe => rw [hl, exceptBind_error] at h; exact absurd h (by simp)
      | ok r2 =>
        rw [hl, exceptBind_ok] at h
        by_cases hr : checkT r2.2 TType.rparen = true
        · rw [if_pos hr] at h
          cases hc : consumeT r2.2 TType.rparen "Expect ')' after parameters." with
          | error pe => rw [hc, exceptBind_error] at h; exact absurd h (by simp)
          | ok r3 =>
            rw [hc, exceptBind_ok] at h
            cases hb : consumeT r3.2 TType.lbrace ("Expect '\x7b' before " ++ kind ++ " body.") with
            | error pe => rw [hb, exceptBind_error] at h; exact absurd h (by simp)
            | ok r4 =>
              rw [hb, exceptBind_ok] at h
              cases hbl : pBlock fuel r4.2 with
              | error pe => rw [hbl, exceptBind_error] at h; exact absurd h (by simp)
              | ok r5 =>
                rw [hbl, exceptBind_ok] at h
                cases h
                simp [stmtParamCount]
        · rw [if_neg hr] at h
          cases hp : pParamsLoop fuel r2.2 [] with
          | error pe => rw [hp, exceptBind_error] at h; exact absurd h (by simp)
          | ok r3 =>
            rw [hp, exceptBind_ok] at h
            cases hc : consumeT r3.2 TType.rparen "Expect ')' after parameters." with
            | error pe => rw [hc, exceptBind_error] at h; exact absurd h (by simp)
            | ok r4 =>
              rw [hc, exceptBind_ok] at h
              cases hb : consumeT r4.2 TType.lbrace ("Expect '\x7b' before " ++ kind ++ " body.") with
              | error pe => rw [hb, exceptBind_error] at h; exact absurd h (by simp)
              | ok r5 =>
                rw [hb, exceptBind_ok] at h
                cases hbl : pBlock fuel r5.2 with
                | error pe => rw [hbl, exceptBind_error] at h; exact absurd h (by simp)
                | ok r6 =>
                  rw [hbl, exceptBind_ok] at h
                  cases h
                  simpa [stmtParamCount] using
                    pParamsLoop_le fuel r2.2 [] r3.1 r3.2 (by rw [hp])

set_option maxRecDepth 100000 in
/-- Claim C5, amended: ordinary call argument lists and function/method
parameter lists are limited to 255 entries — a 256th raises the
corresponding parse error — but the argument list of a `new Name(args)`
expression is NOT limited: 256 arguments parse successfully. -/
theorem c5_arg_param_limits :
    (∀ (fuel : Nat) (callee : PExpr) (st : PSt) (e : PExpr) (st' : PSt),
      pFinishCall fuel callee st = .ok (e, st') → callArgCount e ≤ 255) ∧
    (∀ (fuel : Nat) (kind : String) (st : PSt) (s : PStmt) (st' : PSt),
      pFunction fuel kind st = .ok (s, st') → stmtParamCount s ≤ 255) ∧
    pExpression 600 ⟨callToks256, eofTokenD⟩ =
      .error ⟨1, "a", "Can't have more than 255 arguments."⟩ ∧
    pFunction 600 "function" ⟨funToks256, eofTokenD⟩ =
      .error ⟨1, "a", "Can't have more than 255 parameters."⟩ ∧
    (match pExpression 600 ⟨newToks256, eofTokenD⟩ with
      | .ok (e, _) => newArgCount e
      | .error _ => 0) = 256 :=
  ⟨pFinishCall_le, pFunction_le, by rfl, by rfl, by rfl⟩

set_option maxRecDepth 100000 in
/-- Claim C5 counterexample: the token stream of `new C(a, ..., a)` with 256
arguments parses successfully into a `new` expression carrying 256 arguments
— the 256th entry does not cause a parse error. -/
theorem c5_counterexample :
    (match pExpression 600 ⟨newToks256, eofTokenD⟩ with
      | .ok (e, _) => newArgCount e
      | .error _ => 0) = 256 := by rfl

set_option maxRecDepth 100000 in
/-- Claim C5 witness: the two bounded conjuncts at small successful parses
(`f(a, a)` and `fun f(a) {}`). -/
theorem c5_witness :
    pFinishCall 50 (PExpr.variable (identTok "f")) c5wSt = .ok c5wPair ∧
    callArgCount c5wPair.1 ≤ 255 ∧
    pFunction 50 "function" ⟨c5wFunToks, eofTokenD⟩ = .ok c5wFunPair ∧
    stmtParamCount c5wFunPair.1 ≤ 255 :=
  ⟨rfl,
    c5_arg_param_limits.1 50 (PExpr.variable (identTok "f")) c5wSt c5wPair.1
      c5wPair.2 rfl,
    rfl,
    c5_arg_param_limits.2.1 50 "function" ⟨c5wFunToks, eofTokenD⟩ c5wFunPair.1
      c5wFunPair.2 rfl⟩

end OScript
